import Mathlib

/-!
Verification of the weatherproject GRIB index-and-resolve engine.

This file gives a shallow embedding of the parts of the repository that the
claims speak about, and proves (or refutes) each claim against it.

Modelling conventions:
* ISO-8601 UTC timestamp strings are modelled as rationals (`ℚ`).  The code
  compares such strings lexicographically (SQL `>=`, `<=`, `ORDER BY`) and
  converts them with `julianday(...) * 24.0` to fractional hours; for
  timestamps in the fixed format the code writes, lexicographic order and
  `julianday` order agree, so a linearly ordered, subtraction-closed carrier
  is a faithful abstraction.  Latitudes, longitudes and field values
  (Python floats compared with `<=`/`>=` only) are modelled as `ℚ` as well.
* SQLite `NULL`-able columns are `Option` values; SQL `=` on a `NULL`
  operand is never true, and `UNIQUE` treats `NULL` as distinct from
  everything (including another `NULL`) — see `sqlOptEq`.
* The eccodes decoder and the file system are an explicit environment
  `String → Except String (List GribMsg)`; a Python exception while opening
  or decoding a file is an `Except.error` outcome.
* `records` rows as read by `query_file_index.py` carry
  `(id, file_path, var, level_type, ref_time_utc, forecast_time_utc,
  lead_hours)`.
-/

namespace WeatherProj

/-- Decidable equality for `Except`, so that concrete outcomes of fallible
operations can be evaluated by `decide`. -/
instance {ε α : Type} [DecidableEq ε] [DecidableEq α] :
    DecidableEq (Except ε α) := fun x y =>
  match x, y with
  | .ok a, .ok b =>
    if h : a = b then .isTrue (by rw [h])
    else .isFalse (by intro hh; cases hh; exact h rfl)
  | .error a, .error b =>
    if h : a = b then .isTrue (by rw [h])
    else .isFalse (by intro hh; cases hh; exact h rfl)
  | .ok _, .error _ => .isFalse (by intro hh; cases hh)
  | .error _, .ok _ => .isFalse (by intro hh; cases hh)

/-! ### Generic embedding of SQL `ORDER BY key LIMIT 1`

`selBest lt xs` scans `xs` keeping the current best row, replacing it
whenever a strictly `lt`-smaller row appears.  It returns a row that is
minimal with respect to `lt`, which is exactly what `ORDER BY ... LIMIT 1`
guarantees. -/

def selStep {α : Type} (lt : α → α → Prop) [DecidableRel lt]
    (acc : Option α) (x : α) : Option α :=
  match acc with
  | none => some x
  | some b => if lt x b then some x else some b

def selBest {α : Type} (lt : α → α → Prop) [DecidableRel lt]
    (xs : List α) : Option α :=
  xs.foldl (selStep lt) none

/-! ### `query_file_index.py`: the per-message records table -/

/-- A row of the `records` table in the shape `query_file_index.py` reads it
(`SELECT id, file_path, var, level_type, ref_time_utc, forecast_time_utc,
lead_hours`). -/
structure QRecord where
  id : Nat
  file_path : String
  var : String
  level_type : Option String
  ref_time : ℚ
  forecast_time : ℚ
  lead_hours : ℤ
deriving DecidableEq, Repr

/-- Absolute value on `ℚ`, written with an `if` so that it evaluates by
kernel reduction (it agrees with `|·|`). -/
def ratAbs (x : ℚ) : ℚ :=
  if x < 0 then -x else x

/-- Embedding of `ABS((julianday(forecast_time_utc) - julianday(?)) * 24.0)`:
the absolute distance, in hours, between a record's forecast time and the
query instant. -/
def deltaHours (qt : ℚ) (r : QRecord) : ℚ :=
  ratAbs (r.forecast_time - qt)

/-- Embedding of the SQL filter `WHERE var = ? AND level_type = ?`.
SQL `=` on a `NULL` `level_type` is never true, hence the `some` match. -/
def varLevelMatch (r : QRecord) (v lt_ : String) : Bool :=
  r.var == v && r.level_type == some lt_

/-- Candidate set of `query_nearest_record`: the records that pass the
`var`/`level_type` filter. -/
def nearestCandidates (db : List QRecord) (lt_ v : String) : List QRecord :=
  db.filter (fun r => varLevelMatch r v lt_)

/-- Strict "sorts strictly earlier" relation of
`ORDER BY delta_hours ASC, ref_time_utc DESC`. -/
def nearestLT (qt : ℚ) (a b : QRecord) : Prop :=
  deltaHours qt a < deltaHours qt b ∨
    (deltaHours qt a = deltaHours qt b ∧ b.ref_time < a.ref_time)

instance (qt : ℚ) : DecidableRel (nearestLT qt) := fun a b => by
  unfold nearestLT; exact inferInstance

/-- Embedding of `query_nearest_record(query_time, level_type, var)`:
among the records matching `var` and `level_type`, return the one sorting
first under `ORDER BY delta_hours ASC, ref_time_utc DESC LIMIT 1`. -/
def query_nearest_record (db : List QRecord) (qt : ℚ) (lt_ v : String) :
    Option QRecord :=
  selBest (nearestLT qt) (nearestCandidates db lt_ v)

/-- Strict "sorts strictly earlier" relation of `ORDER BY ref_time_utc DESC`
used inside each window partition of `query_records_in_range`. -/
def refLT (a b : QRecord) : Prop :=
  b.ref_time < a.ref_time

instance : DecidableRel refLT := fun a b => by
  unfold refLT; exact inferInstance

/-- Candidate set of `query_records_in_range`: the `WHERE var = ? AND
level_type = ? AND forecast_time_utc >= ? AND forecast_time_utc <= ?`
filter (both window ends inclusive). -/
def rangeCandidates (db : List QRecord) (s e : ℚ) (lt_ v : String) :
    List QRecord :=
  db.filter (fun r =>
    varLevelMatch r v lt_ && decide (s ≤ r.forecast_time) &&
      decide (r.forecast_time ≤ e))

/-- The distinct forecast times among the filtered rows, in the ascending
order the outer `ORDER BY forecast_time_utc ASC` imposes. -/
def rangeTimes (db : List QRecord) (s e : ℚ) (lt_ v : String) : List ℚ :=
  List.insertionSort (· ≤ ·)
    (((rangeCandidates db s e lt_ v).map (fun r => r.forecast_time)).dedup)

/-- The window partition for one forecast time: among the filtered rows
with that forecast time, the row sorting first by `ref_time_utc DESC`
(the `rn = 1` row of `ROW_NUMBER() OVER (PARTITION BY var, level_type,
forecast_time_utc ORDER BY ref_time_utc DESC)`). -/
def bestForTime (db : List QRecord) (s e : ℚ) (lt_ v : String) (t : ℚ) :
    Option QRecord :=
  selBest refLT
    ((rangeCandidates db s e lt_ v).filter (fun r => r.forecast_time == t))

/-- Embedding of `query_records_in_range(start, end, level_type, var)`:
for each distinct forecast time among the filtered rows, the newest row by
`ref_time_utc`, ordered by `forecast_time_utc ASC`. -/
def query_records_in_range (db : List QRecord) (s e : ℚ) (lt_ v : String) :
    List QRecord :=
  (rangeTimes db s e lt_ v).filterMap (bestForTime db s e lt_ v)

/-! ### `query_file_index.py`: the parallel extraction stage -/

/-- Bounding box in the argument order of `query_func` and
`_process_record_worker`: `bbox = (min_lat, min_lon, max_lat, max_lon)`. -/
structure BBox where
  min_lat : ℚ
  min_lon : ℚ
  max_lat : ℚ
  max_lon : ℚ
deriving DecidableEq, Repr

/-- One grid point `{lat, lon, value}` as returned by
`codes_grib_get_data`. -/
structure GribPoint where
  lat : ℚ
  lon : ℚ
  value : ℚ
deriving DecidableEq, Repr

/-- A decoded GRIB message: the header keys `_msg_matches` looks at
(each may be absent), whether `codes_grib_get_data` returns the supported
sequence-of-mappings shape (`raw_ok`), and the points themselves. -/
structure GribMsg where
  cfVarName : Option String
  shortName : Option String
  typeOfLevel : Option String
  raw_ok : Bool
  points : List GribPoint
deriving DecidableEq, Repr

/-- Embedding of `_msg_matches`: `(var_name != var and short != var) or
tol != level_type` rejects; a `None` header never equals a string. -/
def msgMatches (m : GribMsg) (v lt_ : String) : Bool :=
  (m.cfVarName == some v || m.shortName == some v) &&
    m.typeOfLevel == some lt_

/-- One output row of the extraction path, in the schema
`_process_record_worker` emits. -/
structure OutRow where
  prediction_time : ℚ
  create_time : ℚ
  type : String
  level : String
  json_key : String
  value_min : ℚ
  value_max : ℚ
  path : String
  lat : ℚ
  lon : ℚ
deriving DecidableEq, Repr

/-- Embedding of the bbox mask `(lats >= min_lat) & (lats <= max_lat) &
(lons >= min_lon) & (lons <= max_lon)`. -/
def inBBox (b : BBox) (p : GribPoint) : Bool :=
  decide (b.min_lat ≤ p.lat) && decide (p.lat ≤ b.max_lat) &&
    decide (b.min_lon ≤ p.lon) && decide (p.lon ≤ b.max_lon)

/-- Rows a matching message contributes: one row per masked grid point,
with `value_min` and `value_max` both set to that point's single value. -/
def rowsOfMsg (rec : QRecord) (v lt_ : String) (b : BBox)
    (pts : List GribPoint) : List OutRow :=
  (pts.filter (inBBox b)).map (fun p =>
    { prediction_time := rec.forecast_time
      create_time := rec.ref_time
      type := v
      level := lt_
      json_key := v ++ "_" ++ lt_
      value_min := p.value
      value_max := p.value
      path := rec.file_path
      lat := p.lat
      lon := p.lon })

/-- Embedding of the message loop of `_process_record_worker`: scan until
the first message matching `(var, level_type)`; on a match, either emit its
masked points (when the raw data has the supported non-empty shape) or
nothing, and stop (`break`) either way. -/
def processMsgs (rec : QRecord) (v lt_ : String) (b : BBox) :
    List GribMsg → List OutRow
  | [] => []
  | m :: rest =>
    if msgMatches m v lt_ then
      if m.raw_ok && !m.points.isEmpty then rowsOfMsg rec v lt_ b m.points
      else []
    else processMsgs rec v lt_ b rest

/-- The decoder/file-system environment: opening and decoding a file either
yields its messages or fails (any Python exception). -/
def FsEnv : Type :=
  String → Except String (List GribMsg)

/-- Whether opening the record's file raises (the situation caught by the
worker's `except Exception`). -/
def workerFails (env : FsEnv) (r : QRecord) : Bool :=
  match env r.file_path with
  | .error _ => true
  | .ok _ => false

/-- Embedding of `_process_record_worker`: on any exception the `except`
clause is reached and the (empty) accumulator is returned, so a failing
file contributes no rows; the worker itself never raises. -/
def processRecordWorker (env : FsEnv) (rec : QRecord) (v lt_ : String)
    (b : BBox) : List OutRow :=
  match env rec.file_path with
  | .error _ => []
  | .ok msgs => processMsgs rec v lt_ b msgs

/-- Embedding of `query_func`: resolve the newest record per forecast time
in the window, run the worker on each, and collect everything the workers
return (worker completion order does not change the collected multiset; we
fix candidate order).  A future that raised is caught and skipped, but the
worker already returns `[]` instead of raising. -/
def query_func (env : FsEnv) (db : List QRecord) (s e : ℚ) (lt_ v : String)
    (b : BBox) : List OutRow :=
  (query_records_in_range db s e lt_ v).flatMap
    (fun rec => processRecordWorker env rec v lt_ b)

/-! ### `bunk_index.py`: the per-file variable-summary index -/

/-- Result of `parse_cfs_filename`: product and the two `YYYYMMDDHH`
timestamps of the name, parsed by `strptime("%Y%m%d%H")` and therefore
lying on whole hours.  Times are in hours since the epoch. -/
structure CfsFileMeta where
  product : String
  forecast_hr : ℤ
  run_hr : ℤ
  path : String
deriving DecidableEq, Repr

/-- A row of the `records` table of `bunk_index.py` (`level_type` and
`level_value` are nullable). -/
structure BRow where
  product : String
  file_path : String
  run_time_hr : ℤ
  forecast_time_hr : ℤ
  lead_hours : ℤ
  var : String
  level_type : Option String
  level_value : Option ℚ
deriving DecidableEq, Repr

/-- SQLite `UNIQUE`-index equality on a nullable column: `NULL` is distinct
from every value, including another `NULL`, so only two non-`NULL` equal
values collide. -/
def sqlOptEq {α : Type} [BEq α] : Option α → Option α → Bool
  | some x, some y => x == y
  | _, _ => false

/-- Whether inserting `a` collides with an existing row `b` under
`UNIQUE(file_path, var, level_type, level_value, forecast_time_utc)`. -/
def conflictsWith (a b : BRow) : Bool :=
  a.file_path == b.file_path && a.var == b.var &&
    sqlOptEq a.level_type b.level_type &&
    sqlOptEq a.level_value b.level_value &&
    a.forecast_time_hr == b.forecast_time_hr

/-- Embedding of `INSERT ... ON CONFLICT(file_path, var, level_type,
level_value, forecast_time_utc) DO NOTHING`. -/
def insertOrIgnore (tbl : List BRow) (r : BRow) : List BRow :=
  if tbl.any (fun x => conflictsWith r x) then tbl else tbl ++ [r]

/-- Embedding of `int((meta.forecast_dt - meta.run_dt).total_seconds() //
3600)`: the timestamps are whole hours, so seconds are the hour difference
times 3600, and `//` is Python floor division. -/
def indexFileLead (m : CfsFileMeta) : ℤ :=
  Int.fdiv ((m.forecast_hr - m.run_hr) * 3600) 3600

/-- The row `index_file` inserts for one variable: filename-derived times
and `NULL` for both `level_type` and `level_value`. -/
def varSummaryRow (m : CfsFileMeta) (v : String) : BRow :=
  { product := m.product
    file_path := m.path
    run_time_hr := m.run_hr
    forecast_time_hr := m.forecast_hr
    lead_hours := indexFileLead m
    var := v
    level_type := none
    level_value := none }

/-- Embedding of `index_file(db_path, file_path)` acting on the records
table: one insert-or-ignore per variable of the file (`var_names` is a
Python set, hence the `dedup`; `sorted` only fixes insertion order). -/
def index_file (tbl : List BRow) (m : CfsFileMeta) (vars : List String) :
    List BRow :=
  vars.dedup.foldl (fun t v => insertOrIgnore t (varSummaryRow m v)) tbl

/-- Header fields of a GRIB message that `_compute_times_from_message`
(`bunk_index.py`) reads; each getter may return nothing. -/
structure MsgHeader where
  dataDate : Option ℤ
  dataTime : Option ℤ
  forecastTime : Option ℤ
  stepRange : Option String
  endStep : Option ℤ
  step : Option ℤ
deriving Repr

/-- Embedding of the `stepRange` parsing: with a `"-"` take the integer
after the last dash (`int(step_range.split("-")[-1])`), otherwise parse the
whole string; an unparsable string yields nothing. -/
def parseStepRange (s : String) : Option ℤ :=
  if s.contains '-' then (s.splitOn "-").getLast?.bind String.toInt?
  else String.toInt? s

/-- The lead-hours determination chain of `_compute_times_from_message`:
`forecastTime`, else `stepRange`, else `endStep`, else `step`. -/
def leadOfHeader (h : MsgHeader) : Option ℤ :=
  match h.forecastTime with
  | some v => some v
  | none =>
    match h.stepRange.bind parseStepRange with
    | some v => some v
    | none =>
      match h.endStep with
      | some v => some v
      | none => h.step

/-- Embedding of `_compute_times_from_message`, returning
`(ref_time, forecast_time, lead_hours)` in hours.  `dateToHr` stands for
`strptime("%Y%m%d%H")` turning the `dataDate` and the hour part of
`dataTime` into an absolute instant; `forecast = ref + timedelta(hours =
lead_hours)` exactly. -/
def computeTimesFromMessage (dateToHr : ℤ → ℤ → ℤ) (h : MsgHeader) :
    Except String (ℤ × ℤ × ℤ) :=
  match h.dataDate, h.dataTime with
  | some d, some t =>
    let hh : ℤ := if t ≥ 100 then Int.fdiv t 100 else t
    let ref : ℤ := dateToHr d hh
    match leadOfHeader h with
    | some lead => .ok (ref, ref + lead, lead)
    | none => .error "Unable to determine forecast lead time (hours)"
  | _, _ => .error "Missing reference time (dataDate/dataTime) in GRIB message"

/-! ### `grib_index.py`: the spatial file index and its query planner -/

/-- A row of the `files` table together with its variable set.
`build_index` keeps `records` (one row per variable) and `spatial_index`
(one row per record carrying the file's bbox) in sync with
`variables_json`, so the joined shape is derivable from the file row. -/
structure GFile where
  id : Nat
  path : String
  product : String
  cycle_time : ℚ
  time_start : ℚ
  time_end : ℚ
  lat_min : ℚ
  lat_max : ℚ
  lon_min : ℚ
  lon_max : ℚ
  vars : List String
deriving DecidableEq, Repr

/-- The arguments of `query(db_path, start_iso, end_iso, lon_min_0_360,
lon_max_0_360, lat_min, lat_max, vars_any, require_all, products)`. -/
structure GQuery where
  start_t : ℚ
  end_t : ℚ
  lon_min : ℚ
  lon_max : ℚ
  lat_min : ℚ
  lat_max : ℚ
  vars_any : Option (List String)
  require_all : Bool
  products : Option (List String)

/-- Embedding of `vars_list = tuple(vars_any) if vars_any else None`: an
empty (or absent) variable list degrades to "no filter". -/
def normVars : Option (List String) → Option (List String)
  | none => none
  | some [] => none
  | some vs => some vs

/-- Embedding of `prods = tuple(p.lower() for p in products) if products
else None`: an empty (or absent) product list degrades to "no filter",
otherwise products are lower-cased. -/
def normProds : Option (List String) → Option (List String)
  | none => none
  | some [] => none
  | some ps => some (ps.map String.toLower)

/-- Embedding of the SQL predicate of `_one_span` applied to the span
`[a, b]`: rtree overlap (`s.max_lon >= a AND s.min_lon <= b AND s.max_lat
>= lat_min AND s.min_lat <= lat_max`), the time-window overlap
(`f.time_end >= start AND f.time_start <= end`), and the optional product
filter. -/
def baseMatch (q : GQuery) (a b : ℚ) (f : GFile) : Bool :=
  decide (a ≤ f.lon_max) && decide (f.lon_min ≤ b) &&
    decide (q.lat_min ≤ f.lat_max) && decide (f.lat_min ≤ q.lat_max) &&
    decide (q.start_t ≤ f.time_end) && decide (f.time_start ≤ q.end_t) &&
    (match normProds q.products with
     | none => true
     | some ps => ps.contains f.product)

/-- Variable-filter semantics of `_one_span` at the file level, after the
join with `records` (one record per variable of the file): with no filter a
file appears iff it has at least one record; in ANY mode iff one of its
records' variables is requested (`r.var IN (...)`); in ALL mode the SQL
keeps every record of the file and the Python post-filter keeps the file
iff its variable set is a superset of the requested set. -/
def varCondition (vs? : Option (List String)) (requireAll : Bool)
    (f : GFile) : Bool :=
  match vs?, requireAll with
  | none, _ => !f.vars.isEmpty
  | some vs, false => f.vars.any (fun v => vs.contains v)
  | some vs, true =>
    !f.vars.isEmpty && vs.all (fun v => f.vars.contains v)

/-- Embedding of the `seen` set at the end of `_one_span`: keep the first
occurrence of each file id. -/
def dedupByIdAux (seen : List Nat) : List GFile → List GFile
  | [] => []
  | f :: rest =>
    if f.id ∈ seen then dedupByIdAux seen rest
    else f :: dedupByIdAux (f.id :: seen) rest

/-- De-duplicate a file list by file id, keeping first occurrences. -/
def dedupById (l : List GFile) : List GFile :=
  dedupByIdAux [] l

/-- Embedding of `_one_span(a, b)`: files whose joined records survive the
SQL predicate and the variable filter, de-duplicated by file id. -/
def one_span (db : List GFile) (q : GQuery) (a b : ℚ) : List GFile :=
  dedupById (db.filter (fun f =>
    baseMatch q a b f && varCondition (normVars q.vars_any) q.require_all f))

/-- Embedding of `query(...)`: a missing index store
(`not os.path.exists(db_path)`) logs an error and returns the empty list;
otherwise one span when `lon_min <= lon_max`, and the concatenation of the
`[lon_min, 360]` and `[0, lon_max]` spans when the region wraps. -/
def query (store : Option (List GFile)) (q : GQuery) : List GFile :=
  match store with
  | none => []
  | some db =>
    if q.lon_min ≤ q.lon_max then one_span db q q.lon_min q.lon_max
    else one_span db q q.lon_min 360 ++ one_span db q 0 q.lon_max

/-- Modelled from the spec: the error taxonomy of §7 (`IndexUnavailable`,
`InvalidQuery`); the source defines no such types. -/
inductive SpecQueryError where
  | indexUnavailable
  | invalidQuery
deriving DecidableEq, Repr

/-- Modelled from the spec: the query behaviour §4.3 prescribes — "empty
variable/product sets are rejected (`InvalidQuery`); a query against a
non-existent index store fails with `IndexUnavailable` ... rather than
crashing"; otherwise the candidate list is returned.  This is the
spec-side definition that the code embedding `query` is compared with. -/
def query_spec (store : Option (List GFile)) (q : GQuery) :
    Except SpecQueryError (List GFile) :=
  match store with
  | none => .error .indexUnavailable
  | some db =>
    match q.vars_any, q.products with
    | some [], _ => .error .invalidQuery
    | _, some [] => .error .invalidQuery
    | _, _ => .ok (query (some db) q)

/-! ### Concrete fixtures used by witness and counterexample theorems -/

/-- Record with forecast time 10h, run time 1h (file `/data/a.grb2`). -/
def exR1 : QRecord :=
  { id := 1, file_path := "/data/a.grb2", var := "t2m",
    level_type := some "surface", ref_time := 1, forecast_time := 10,
    lead_hours := 9 }

/-- Record with forecast time 14h, run time 2h (file `/data/b.grb2`). -/
def exR2 : QRecord :=
  { id := 2, file_path := "/data/b.grb2", var := "t2m",
    level_type := some "surface", ref_time := 2, forecast_time := 14,
    lead_hours := 12 }

/-- A staler run for the same forecast time as `exR2`. -/
def exR3 : QRecord :=
  { id := 3, file_path := "/data/c.grb2", var := "t2m",
    level_type := some "surface", ref_time := 1, forecast_time := 14,
    lead_hours := 13 }

/-- Two-record table: at query time 12h both records are 2h away. -/
def exDb : List QRecord := [exR1, exR2]

/-- Table with a stale duplicate forecast time, in scrambled order. -/
def exRangeDb : List QRecord := [exR2, exR3, exR1]

/-- A message matching `("t2m", "surface")` with one point inside and one
point outside the example bbox. -/
def exMsgGood : GribMsg :=
  { cfVarName := some "t2m", shortName := some "t2m",
    typeOfLevel := some "surface", raw_ok := true,
    points := [⟨5, 5, 42⟩, ⟨50, 50, 7⟩] }

/-- Example bbox `(min_lat, min_lon, max_lat, max_lon) = (0, 0, 10, 10)`. -/
def exBBox : BBox := ⟨0, 0, 10, 10⟩

/-- Environment in which `/data/a.grb2` decodes and every other file
raises a decode error. -/
def exEnv : FsEnv := fun p =>
  if p = "/data/a.grb2" then .ok [exMsgGood] else .error "decode error"

/-- The single output row the extraction of `exR1` produces. -/
def exRow : OutRow :=
  { prediction_time := 10, create_time := 1, type := "t2m",
    level := "surface", json_key := "t2m_surface", value_min := 42,
    value_max := 42, path := "/data/a.grb2", lat := 5, lon := 5 }

/-- Filename metadata with forecast hour 500 and run hour 490 (a CFS name
whose forecast component is 10 hours after its run component). -/
def exMeta : CfsFileMeta :=
  { product := "ocnf", forecast_hr := 500, run_hr := 490,
    path := "/data/ocnf.grb2" }

/-- Filename metadata whose forecast component is 100 hours before its run
component (the CFS regex accepts such names, e.g.
`flxf2025010100.01.2025060100.grb2`). -/
def exMetaBack : CfsFileMeta :=
  { product := "flxf", forecast_hr := 0, run_hr := 100,
    path := "/data/flxf_back.grb2" }

/-- A stand-in for `strptime("%Y%m%d%H")`: day number times 24 plus hour. -/
def exDateToHr : ℤ → ℤ → ℤ := fun d h => d * 24 + h

/-- Header with reference day 0 hour 10 and `forecastTime` 6. -/
def exHeader : MsgHeader :=
  { dataDate := some 0, dataTime := some 10, forecastTime := some 6,
    stepRange := none, endStep := none, step := none }

/-- A file whose bbox spans the whole globe (`lon 0..360`). -/
def gGlobal : GFile :=
  { id := 1, path := "/data/flxf_glob.grb2", product := "flxf",
    cycle_time := 0, time_start := 0, time_end := 100, lat_min := -90,
    lat_max := 90, lon_min := 0, lon_max := 360, vars := ["t2m"] }

/-- File A of the ANY/ALL scenario: variables exactly `{t2m}`. -/
def gA : GFile :=
  { id := 1, path := "/data/a.grb2", product := "flxf", cycle_time := 0,
    time_start := 0, time_end := 100, lat_min := -90, lat_max := 90,
    lon_min := 0, lon_max := 360, vars := ["t2m"] }

/-- File B of the ANY/ALL scenario: variables exactly `{t2m, prate}`. -/
def gB : GFile :=
  { id := 2, path := "/data/b.grb2", product := "flxf", cycle_time := 0,
    time_start := 0, time_end := 100, lat_min := -90, lat_max := 90,
    lon_min := 0, lon_max := 360, vars := ["t2m", "prate"] }

/-- A wraparound query (`lon_min = 350 > lon_max = 10`). -/
def qWrap : GQuery := ⟨0, 100, 350, 10, -90, 90, some ["t2m"], false, none⟩

/-- The non-wrapping `[350, 360]` counterpart of `qWrap`. -/
def qSpanHigh : GQuery :=
  ⟨0, 100, 350, 360, -90, 90, some ["t2m"], false, none⟩

/-- The non-wrapping `[0, 10]` counterpart of `qWrap`. -/
def qSpanLow : GQuery := ⟨0, 100, 0, 10, -90, 90, some ["t2m"], false, none⟩

/-- An unconstrained query over the whole globe and window `[0, 100]`. -/
def qBase : GQuery := ⟨0, 100, 0, 360, -90, 90, none, false, none⟩

/-- `qBase` with an explicitly empty variable list. -/
def qEmptyVars : GQuery := ⟨0, 100, 0, 360, -90, 90, some [], false, none⟩

/-- `qBase` with no variable filter at all (what the code degrades
`qEmptyVars` to). -/
def qNoVars : GQuery := ⟨0, 100, 0, 360, -90, 90, none, false, none⟩

/-! ## Lemmas about the generic best-row selection -/

theorem selStep_some {α : Type} (lt : α → α → Prop) [DecidableRel lt]
    (b x : α) :
    selStep lt (some b) x = some (if lt x b then x else b) := by
  unfold selStep
  by_cases h : lt x b <;> simp [h]

theorem selBest_go_isSome {α : Type} (lt : α → α → Prop) [DecidableRel lt] :
    ∀ (xs : List α) (b : α), ∃ y, xs.foldl (selStep lt) (some b) = some y := by
  intro xs
  induction xs with
  | nil => exact fun b => ⟨b, rfl⟩
  | cons x xs ih =>
    intro b
    rw [List.foldl_cons, selStep_some]
    exact ih _

theorem selBest_go_mem {α : Type} (lt : α → α → Prop) [DecidableRel lt] :
    ∀ (xs : List α) (b y : α),
      xs.foldl (selStep lt) (some b) = some y → y = b ∨ y ∈ xs := by
  intro xs
  induction xs with
  | nil =>
    intro b y h
    simp only [List.foldl_nil, Option.some.injEq] at h
    exact Or.inl h.symm
  | cons x xs ih =>
    intro b y h
    rw [List.foldl_cons, selStep_some] at h
    by_cases hlt : lt x b
    · rw [if_pos hlt] at h
      rcases ih x y h with h1 | h1
      · exact Or.inr (h1 ▸ List.mem_cons_self x xs)
      · exact Or.inr (List.mem_cons_of_mem x h1)
    · rw [if_neg hlt] at h
      rcases ih b y h with h1 | h1
      · exact Or.inl h1
      · exact Or.inr (List.mem_cons_of_mem x h1)

theorem selBest_go_min {α : Type} (lt : α → α → Prop) [DecidableRel lt]
    (htr : ∀ {a b c}, lt a b → lt b c → lt a c)
    (hneg : ∀ {a b c}, ¬lt a b → ¬lt b c → ¬lt a c)
    (hirr : ∀ a, ¬lt a a) :
    ∀ (xs : List α) (b y : α),
      xs.foldl (selStep lt) (some b) = some y →
        ¬lt b y ∧ ∀ a ∈ xs, ¬lt a y := by
  intro xs
  induction xs with
  | nil =>
    intro b y h
    simp only [List.foldl_nil, Option.some.injEq] at h
    subst h
    exact ⟨hirr b, by simp⟩
  | cons x xs ih =>
    intro b y h
    rw [List.foldl_cons, selStep_some] at h
    by_cases hlt : lt x b
    · rw [if_pos hlt] at h
      obtain ⟨hxy, hall⟩ := ih x y h
      have hby : ¬lt b y := fun hby => hxy (htr hlt hby)
      refine ⟨hby, ?_⟩
      intro a ha
      rcases List.mem_cons.mp ha with rfl | ha
      · exact hxy
      · exact hall a ha
    · rw [if_neg hlt] at h
      obtain ⟨hby, hall⟩ := ih b y h
      refine ⟨hby, ?_⟩
      intro a ha
      rcases List.mem_cons.mp ha with rfl | ha
      · exact hneg hlt hby
      · exact hall a ha

theorem selBest_isSome {α : Type} (lt : α → α → Prop) [DecidableRel lt]
    (xs : List α) (h : xs ≠ []) : ∃ y, selBest lt xs = some y := by
  cases xs with
  | nil => exact absurd rfl h
  | cons x xs =>
    unfold selBest
    rw [List.foldl_cons]
    exact selBest_go_isSome lt xs x

theorem selBest_mem {α : Type} (lt : α → α → Prop) [DecidableRel lt]
    {xs : List α} {y : α} (h : selBest lt xs = some y) : y ∈ xs := by
  cases xs with
  | nil => simp [selBest] at h
  | cons x xs =>
    unfold selBest at h
    rw [List.foldl_cons] at h
    rcases selBest_go_mem lt xs x y h with h1 | h1
    · exact h1 ▸ List.mem_cons_self x xs
    · exact List.mem_cons_of_mem x h1

theorem selBest_min {α : Type} (lt : α → α → Prop) [DecidableRel lt]
    (htr : ∀ {a b c}, lt a b → lt b c → lt a c)
    (hneg : ∀ {a b c}, ¬lt a b → ¬lt b c → ¬lt a c)
    (hirr : ∀ a, ¬lt a a)
    {xs : List α} {y : α} (h : selBest lt xs = some y) :
    ∀ a ∈ xs, ¬lt a y := by
  cases xs with
  | nil => simp [selBest] at h
  | cons x xs =>
    unfold selBest at h
    rw [List.foldl_cons] at h
    obtain ⟨hx, hall⟩ := selBest_go_min lt @htr @hneg hirr xs x y h
    intro a ha
    rcases List.mem_cons.mp ha with rfl | ha
    · exact hx
    · exact hall a ha

/-! ## Order properties of the two SQL sort keys -/

theorem nearestLT_trans (qt : ℚ) {a b c : QRecord} :
    nearestLT qt a b → nearestLT qt b c → nearestLT qt a c := by
  unfold nearestLT
  rintro (h | ⟨h1, h2⟩) (g | ⟨g1, g2⟩)
  · exact Or.inl (lt_trans h g)
  · exact Or.inl (g1 ▸ h)
  · exact Or.inl (h1 ▸ g)
  · exact Or.inr ⟨h1.trans g1, lt_trans g2 h2⟩

theorem nearestLT_negtrans (qt : ℚ) {a b c : QRecord} :
    ¬nearestLT qt a b → ¬nearestLT qt b c → ¬nearestLT qt a c := by
  intro h g hac
  have hdb : deltaHours qt b ≤ deltaHours qt a :=
    le_of_not_lt (fun hh => h (Or.inl hh))
  have hdc : deltaHours qt c ≤ deltaHours qt b :=
    le_of_not_lt (fun hh => g (Or.inl hh))
  rcases hac with hlt | ⟨heq, href⟩
  · exact absurd hlt (not_lt.mpr (hdc.trans hdb))
  · have h1 : deltaHours qt a = deltaHours qt b :=
      le_antisymm (by rw [heq]; exact hdc.trans (le_of_eq rfl)) hdb
    have h2 : deltaHours qt b = deltaHours qt c :=
      le_antisymm (by rw [← heq]; exact hdb) hdc
    have hra : a.ref_time ≤ b.ref_time :=
      le_of_not_lt (fun hh => h (Or.inr ⟨h1, hh⟩))
    have hrb : b.ref_time ≤ c.ref_time :=
      le_of_not_lt (fun hh => g (Or.inr ⟨h2, hh⟩))
    exact absurd href (not_lt.mpr (hra.trans hrb))

theorem nearestLT_irrefl (qt : ℚ) (a : QRecord) : ¬nearestLT qt a a := by
  unfold nearestLT
  rintro (h | ⟨-, h⟩) <;> exact lt_irrefl _ h

theorem refLT_trans {a b c : QRecord} : refLT a b → refLT b c → refLT a c :=
  fun h g => lt_trans g h

theorem refLT_negtrans {a b c : QRecord} :
    ¬refLT a b → ¬refLT b c → ¬refLT a c := by
  unfold refLT
  intro h g
  exact not_lt.mpr ((not_lt.mp h).trans (not_lt.mp g))

theorem refLT_irrefl (a : QRecord) : ¬refLT a a := lt_irrefl _

/-! ## C1: the nearest-match resolver -/

/-- C1: for every candidate set of records sharing the requested
`(variable, level_type)`, `query_nearest_record` returns a record (when any
candidate exists) that is a candidate, whose `forecast_time` has minimal
absolute distance to the target, and that has the latest `ref_time_utc`
among equally distant candidates — for every table, hence regardless of
insertion order. -/
theorem query_nearest_record_correct (db : List QRecord) (qt : ℚ)
    (lt_ v : String) :
    (nearestCandidates db lt_ v ≠ [] →
      ∃ r, query_nearest_record db qt lt_ v = some r)
    ∧ ∀ r, query_nearest_record db qt lt_ v = some r →
        r ∈ nearestCandidates db lt_ v
        ∧ ∀ s ∈ nearestCandidates db lt_ v,
            deltaHours qt r ≤ deltaHours qt s
            ∧ (deltaHours qt r = deltaHours qt s → s.ref_time ≤ r.ref_time) := by
  constructor
  · intro h
    exact selBest_isSome _ _ h
  · intro r h
    refine ⟨selBest_mem _ h, ?_⟩
    intro s hs
    have hmin :=
      selBest_min (nearestLT qt) (fun h1 h2 => nearestLT_trans qt h1 h2)
        (fun h1 h2 => nearestLT_negtrans qt h1 h2) (nearestLT_irrefl qt)
        h s hs
    constructor
    · exact le_of_not_lt (fun hh => hmin (Or.inl hh))
    · intro heq
      exact le_of_not_lt (fun hh => hmin (Or.inr ⟨heq.symm, hh⟩))

/-- Witness for C1: at query time 12h, `exR1` (forecast 10h) and `exR2`
(forecast 14h) are equally distant; the resolver picks `exR2`, the record
with the later run time. -/
theorem query_nearest_record_correct_witness :
    query_nearest_record exDb 12 "surface" "t2m" = some exR2
    ∧ exR1.ref_time ≤ exR2.ref_time := by
  refine ⟨by with_unfolding_all decide, ?_⟩
  have h := (query_nearest_record_correct exDb 12 "surface" "t2m").2 exR2
    (by with_unfolding_all decide)
  exact (h.2 exR1 (by with_unfolding_all decide)).2 (by with_unfolding_all decide)

/-! ## C2: the range resolver -/

theorem bestForTime_sound (db : List QRecord) (s e : ℚ) (lt_ v : String)
    (t : ℚ) (y : QRecord) (h : bestForTime db s e lt_ v t = some y) :
    y ∈ rangeCandidates db s e lt_ v
    ∧ y.forecast_time = t
    ∧ ∀ r2 ∈ rangeCandidates db s e lt_ v,
        r2.forecast_time = t → r2.ref_time ≤ y.ref_time := by
  have hmem := selBest_mem _ h
  have hft : y.forecast_time = t := by
    have hb := (List.mem_filter.mp hmem).2
    simpa using hb
  refine ⟨(List.mem_filter.mp hmem).1, hft, ?_⟩
  intro r2 hr2 hft2
  have hr2f : r2 ∈ (rangeCandidates db s e lt_ v).filter
      (fun r => r.forecast_time == t) :=
    List.mem_filter.mpr ⟨hr2, by simp [hft2]⟩
  have hmin := selBest_min refLT (fun h1 h2 => refLT_trans h1 h2)
    (fun h1 h2 => refLT_negtrans h1 h2) refLT_irrefl h r2 hr2f
  exact le_of_not_lt hmin

/-- C2: for every stored record set and closed window `[start, end]`,
`query_records_in_range` returns a list strictly ascending in
`forecast_time_utc` (hence at most one record per forecast time); each
returned record passes the `(variable, level_type)` filter and lies in the
inclusive window, and has the maximal `ref_time_utc` among the filtered
records sharing its forecast time; and every forecast time occurring among
the filtered records is represented in the result. -/
theorem query_records_in_range_correct (db : List QRecord) (s e : ℚ)
    (lt_ v : String) :
    (query_records_in_range db s e lt_ v).Pairwise
      (fun a b => a.forecast_time < b.forecast_time)
    ∧ (∀ r ∈ query_records_in_range db s e lt_ v,
        r ∈ rangeCandidates db s e lt_ v
        ∧ ∀ r2 ∈ rangeCandidates db s e lt_ v,
            r2.forecast_time = r.forecast_time → r2.ref_time ≤ r.ref_time)
    ∧ ∀ r ∈ rangeCandidates db s e lt_ v,
        ∃ r2 ∈ query_records_in_range db s e lt_ v,
          r2.forecast_time = r.forecast_time := by
  have hsorted : (rangeTimes db s e lt_ v).Sorted (· < ·) := by
    have h1 : (rangeTimes db s e lt_ v).Sorted (· ≤ ·) :=
      List.sorted_insertionSort _ _
    have h2 : (rangeTimes db s e lt_ v).Nodup :=
      (List.perm_insertionSort _ _).nodup_iff.mpr (List.nodup_dedup _)
    exact h1.lt_of_le h2
  refine ⟨?_, ?_, ?_⟩
  · rw [query_records_in_range, List.pairwise_filterMap]
    refine List.Pairwise.imp ?_ hsorted
    intro t t2 hlt b hb b2 hb2
    have h1 := bestForTime_sound db s e lt_ v t b (Option.mem_def.mp hb)
    have h2 := bestForTime_sound db s e lt_ v t2 b2 (Option.mem_def.mp hb2)
    rw [h1.2.1, h2.2.1]
    exact hlt
  · intro r hr
    rw [query_records_in_range] at hr
    obtain ⟨t, _, hbt⟩ := List.mem_filterMap.mp hr
    have hs := bestForTime_sound db s e lt_ v t r hbt
    exact ⟨hs.1, fun r2 hr2 hft => hs.2.2 r2 hr2 (hft.trans hs.2.1)⟩
  · intro r hr
    have ht : r.forecast_time ∈ rangeTimes db s e lt_ v := by
      rw [rangeTimes, List.mem_insertionSort, List.mem_dedup]
      exact List.mem_map.mpr ⟨r, hr, rfl⟩
    have hne : (rangeCandidates db s e lt_ v).filter
        (fun x => x.forecast_time == r.forecast_time) ≠ [] := by
      intro hnil
      have hin : r ∈ (rangeCandidates db s e lt_ v).filter
          (fun x => x.forecast_time == r.forecast_time) :=
        List.mem_filter.mpr ⟨hr, by simp⟩
      rw [hnil] at hin
      exact absurd hin (List.not_mem_nil r)
    obtain ⟨y, hy⟩ := selBest_isSome refLT _ hne
    refine ⟨y, ?_, ?_⟩
    · rw [query_records_in_range]
      exact List.mem_filterMap.mpr ⟨r.forecast_time, ht, hy⟩
    · exact (bestForTime_sound db s e lt_ v r.forecast_time y hy).2.1

/-- Witness for C2: on a table holding forecast times 14h (runs 2h and 1h)
and 10h (run 1h), the range resolver output is ascending in forecast time
and the stale 14h run is dominated by the returned one. -/
theorem query_records_in_range_correct_witness :
    (query_records_in_range exRangeDb 0 20 "surface" "t2m").Pairwise
      (fun a b => a.forecast_time < b.forecast_time)
    ∧ exR3.ref_time ≤ exR2.ref_time := by
  refine ⟨(query_records_in_range_correct exRangeDb 0 20 "surface" "t2m").1, ?_⟩
  exact ((query_records_in_range_correct exRangeDb 0 20 "surface" "t2m").2.1
      exR2 (by with_unfolding_all decide)).2 exR3
      (by with_unfolding_all decide) (by with_unfolding_all decide)

/-! ## C8: partial-failure tolerance of the extraction batch -/

theorem flatMap_eq_flatMap_filter {α β : Type} (l : List α) (p : α → Bool)
    (f : α → List β) (h : ∀ x ∈ l, p x = false → f x = []) :
    l.flatMap f = (l.filter p).flatMap f := by
  induction l with
  | nil => rfl
  | cons x xs ih =>
    rw [List.flatMap_cons, List.filter_cons]
    cases hp : p x with
    | false =>
      rw [h x (List.mem_cons_self x xs) hp]
      simp only [Bool.false_eq_true, if_false, List.nil_append]
      exact ih (fun y hy => h y (List.mem_cons_of_mem x hy))
    | true =>
      simp only [if_true, List.flatMap_cons]
      rw [ih (fun y hy => h y (List.mem_cons_of_mem x hy))]

theorem processRecordWorker_of_fail (env : FsEnv) (rec : QRecord)
    (v lt_ : String) (b : BBox) (h : workerFails env rec = true) :
    processRecordWorker env rec v lt_ b = [] := by
  unfold workerFails at h
  unfold processRecordWorker
  cases henv : env rec.file_path with
  | error err => rfl
  | ok msgs => rw [henv] at h; exact absurd h (by simp)

/-- C8: `query_func` is a total function (it never raises), its output is
unchanged when the candidates whose files fail to open or decode are
removed — a failing file contributes zero rows — and every row extracted
from a non-failing candidate is present in the output. -/
theorem query_func_fault_tolerance (env : FsEnv) (db : List QRecord)
    (s e : ℚ) (lt_ v : String) (b : BBox) :
    query_func env db s e lt_ v b
      = ((query_records_in_range db s e lt_ v).filter
          (fun rec => !workerFails env rec)).flatMap
          (fun rec => processRecordWorker env rec v lt_ b)
    ∧ ∀ rec ∈ query_records_in_range db s e lt_ v,
        workerFails env rec = false →
        ∀ row ∈ processRecordWorker env rec v lt_ b,
          row ∈ query_func env db s e lt_ v b := by
  constructor
  · apply flatMap_eq_flatMap_filter
    intro rec _ hp
    have hfail : workerFails env rec = true := by
      cases hw : workerFails env rec with
      | false => rw [hw] at hp; exact absurd hp (by simp)
      | true => rfl
    exact processRecordWorker_of_fail env rec v lt_ b hfail
  · intro rec hrec _ row hrow
    exact List.mem_flatMap.mpr ⟨rec, hrec, hrow⟩

/-- Witness for C8: with `/data/b.grb2` raising a decode error, the batch
still contains the row extracted from `/data/a.grb2`. -/
theorem query_func_fault_tolerance_witness :
    workerFails exEnv exR2 = true
    ∧ exRow ∈ query_func exEnv exDb 0 20 "surface" "t2m" exBBox := by
  refine ⟨by with_unfolding_all decide, ?_⟩
  exact (query_func_fault_tolerance exEnv exDb 0 20 "surface" "t2m" exBBox).2
    exR1 (by with_unfolding_all decide) (by with_unfolding_all decide)
    exRow (by with_unfolding_all decide)

/-! ## C10: the bbox invariant of emitted rows -/

theorem rowsOfMsg_sound (rec : QRecord) (v lt_ : String) (b : BBox)
    (pts : List GribPoint) (row : OutRow)
    (h : row ∈ rowsOfMsg rec v lt_ b pts) :
    b.min_lat ≤ row.lat ∧ row.lat ≤ b.max_lat
    ∧ b.min_lon ≤ row.lon ∧ row.lon ≤ b.max_lon
    ∧ row.value_min = row.value_max := by
  unfold rowsOfMsg at h
  obtain ⟨p, hp, hrow⟩ := List.mem_map.mp h
  have hin := (List.mem_filter.mp hp).2
  unfold inBBox at hin
  simp only [Bool.and_eq_true, decide_eq_true_eq] at hin
  subst hrow
  exact ⟨hin.1.1.1, hin.1.1.2, hin.1.2, hin.2, rfl⟩

theorem processMsgs_sound (rec : QRecord) (v lt_ : String) (b : BBox) :
    ∀ (msgs : List GribMsg) (row : OutRow),
      row ∈ processMsgs rec v lt_ b msgs →
        b.min_lat ≤ row.lat ∧ row.lat ≤ b.max_lat
        ∧ b.min_lon ≤ row.lon ∧ row.lon ≤ b.max_lon
        ∧ row.value_min = row.value_max := by
  intro msgs
  induction msgs with
  | nil => intro row h; simp [processMsgs] at h
  | cons m rest ih =>
    intro row h
    rw [processMsgs] at h
    by_cases hm : msgMatches m v lt_
    · rw [if_pos hm] at h
      by_cases hraw : (m.raw_ok && !m.points.isEmpty) = true
      · rw [if_pos hraw] at h
        exact rowsOfMsg_sound rec v lt_ b m.points row h
      · rw [if_neg hraw] at h
        exact absurd h (List.not_mem_nil row)
    · rw [if_neg hm] at h
      exact ih row h

/-- C10: every row emitted by the point-extraction path (`query_func` via
`_process_record_worker`) has its latitude in `[min_lat, max_lat]`, its
longitude in `[min_lon, max_lon]`, and `value_min = value_max` (each row
carries exactly one grid-point value). -/
theorem query_func_bbox_invariant (env : FsEnv) (db : List QRecord)
    (s e : ℚ) (lt_ v : String) (b : BBox) :
    ∀ row ∈ query_func env db s e lt_ v b,
      b.min_lat ≤ row.lat ∧ row.lat ≤ b.max_lat
      ∧ b.min_lon ≤ row.lon ∧ row.lon ≤ b.max_lon
      ∧ row.value_min = row.value_max := by
  intro row hrow
  obtain ⟨rec, _, hw⟩ := List.mem_flatMap.mp hrow
  unfold processRecordWorker at hw
  cases henv : env rec.file_path with
  | error err =>
    rw [henv] at hw
    exact absurd hw (List.not_mem_nil row)
  | ok msgs =>
    rw [henv] at hw
    exact processMsgs_sound rec v lt_ b msgs row hw

/-- Witness for C10: the row extracted from the example corpus lies inside
the example bbox and carries a single value. -/
theorem query_func_bbox_invariant_witness :
    exBBox.min_lat ≤ exRow.lat ∧ exRow.lat ≤ exBBox.max_lat
    ∧ exBBox.min_lon ≤ exRow.lon ∧ exRow.lon ≤ exBBox.max_lon
    ∧ exRow.value_min = exRow.value_max :=
  query_func_bbox_invariant exEnv exDb 0 20 "surface" "t2m" exBBox exRow
    (by with_unfolding_all decide)

/-! ## C4: idempotence of `index_file` -/

/-- C4 fails on the code: `index_file` inserts every row with `NULL`
`level_type` and `level_value`, and SQLite `UNIQUE` treats `NULL` as
distinct from `NULL`, so `ON CONFLICT ... DO NOTHING` never fires for
these rows.  Indexing the same single-variable file twice leaves two rows
where one run leaves one, contradicting the documented insert-or-ignore
design of the schema. -/
theorem index_file_reindex_not_idempotent :
    (index_file [] exMeta ["t2m"]).length = 1
    ∧ (index_file (index_file [] exMeta ["t2m"]) exMeta ["t2m"]).length = 2 := by
  with_unfolding_all decide

/-! ## C6: the `lead_hours` invariant -/

/-- Counterexample to C6: a CFS filename whose forecast component precedes
its run component (accepted by `parse_cfs_filename`, which imposes no
ordering) yields an indexed record with negative `lead_hours`, refuting
`lead_hours ≥ 0`. -/
theorem index_file_negative_lead_counterexample :
    index_file [] exMetaBack ["t2m"] = [varSummaryRow exMetaBack "t2m"]
    ∧ (varSummaryRow exMetaBack "t2m").lead_hours = -100
    ∧ (varSummaryRow exMetaBack "t2m").lead_hours < 0 := by
  with_unfolding_all decide

/-- C6 as amended: `lead_hours` always equals the rounded difference in
hours between `forecast_time` and `run_time`, both for filename-derived
records of `index_file` and for `_compute_times_from_message` outputs; but
`lead_hours ≥ 0` holds exactly when `forecast_time ≥ run_time`, which the
code does not enforce. -/
theorem lead_hours_rounded_difference (m : CfsFileMeta) (v : String) :
    (varSummaryRow m v).lead_hours
      = round ((((m.forecast_hr - m.run_hr : ℤ) : ℚ) * 3600) / 3600)
    ∧ (0 ≤ (varSummaryRow m v).lead_hours ↔ m.run_hr ≤ m.forecast_hr)
    ∧ ∀ (dateToHr : ℤ → ℤ → ℤ) (h : MsgHeader) (ref fc lead : ℤ),
        computeTimesFromMessage dateToHr h = .ok (ref, fc, lead) →
          lead = round ((fc : ℚ) - (ref : ℚ)) ∧ (0 ≤ lead ↔ ref ≤ fc) := by
  have hlead : (varSummaryRow m v).lead_hours = m.forecast_hr - m.run_hr := by
    show indexFileLead m = _
    unfold indexFileLead
    exact Int.mul_fdiv_cancel _ (by norm_num)
  refine ⟨?_, ?_, ?_⟩
  · rw [hlead]
    have hdiv : (((m.forecast_hr - m.run_hr : ℤ) : ℚ) * 3600) / 3600
        = ((m.forecast_hr - m.run_hr : ℤ) : ℚ) :=
      mul_div_cancel_right₀ _ (by norm_num)
    rw [hdiv, round_intCast]
  · rw [hlead]; omega
  · intro dateToHr h ref fc lead hc
    cases hdate : h.dataDate with
    | none =>
      cases htime : h.dataTime <;>
        simp [computeTimesFromMessage, hdate] at hc
    | some d =>
      cases htime : h.dataTime with
      | none => simp [computeTimesFromMessage, hdate, htime] at hc
      | some t =>
        simp only [computeTimesFromMessage, hdate, htime] at hc
        cases hl : leadOfHeader h with
        | none => rw [hl] at hc; exact absurd hc (by simp)
        | some l =>
          rw [hl] at hc
          simp only [Except.ok.injEq, Prod.mk.injEq] at hc
          obtain ⟨h1, h2, h3⟩ := hc
          subst h1; subst h2; subst h3
          have hq : ∀ x y : ℤ, ((x + y : ℤ) : ℚ) - (x : ℚ) = ((y : ℤ) : ℚ) := by
            intro x y; push_cast; ring
          constructor
          · rw [hq, round_intCast]
          · omega

/-- Witness for the amended C6: a file with forecast 10 hours after run
has non-negative lead, and a message with reference hour 10 and
`forecastTime` 6 satisfies `ref ≤ forecast`. -/
theorem lead_hours_rounded_difference_witness :
    0 ≤ (varSummaryRow exMeta "t2m").lead_hours ∧ (10 : ℤ) ≤ 16 := by
  refine ⟨(lead_hours_rounded_difference exMeta "t2m").2.1.mpr
    (by with_unfolding_all decide), ?_⟩
  exact ((lead_hours_rounded_difference exMeta "t2m").2.2 exDateToHr exHeader
    10 16 6 (by with_unfolding_all decide)).2.mp (by decide)

/-! ## Lemmas about the per-span de-duplication of `_one_span` -/

theorem dedupByIdAux_not_mem_seen :
    ∀ (l : List GFile) (seen : List Nat) (f : GFile),
      f ∈ dedupByIdAux seen l → f.id ∉ seen := by
  intro l
  induction l with
  | nil => intro seen f h; simp [dedupByIdAux] at h
  | cons g rest ih =>
    intro seen f h
    rw [dedupByIdAux] at h
    by_cases hg : g.id ∈ seen
    · rw [if_pos hg] at h
      exact ih seen f h
    · rw [if_neg hg] at h
      rcases List.mem_cons.mp h with rfl | h2
      · exact hg
      · have hni := ih _ f h2
        exact fun hmem => hni (List.mem_cons_of_mem _ hmem)

theorem dedupByIdAux_pairwise :
    ∀ (l : List GFile) (seen : List Nat),
      (dedupByIdAux seen l).Pairwise (fun f g => f.id ≠ g.id) := by
  intro l
  induction l with
  | nil => intro seen; simp [dedupByIdAux]
  | cons g rest ih =>
    intro seen
    rw [dedupByIdAux]
    by_cases hg : g.id ∈ seen
    · rw [if_pos hg]; exact ih seen
    · rw [if_neg hg]
      refine List.Pairwise.cons ?_ (ih _)
      intro f hf
      have hni := dedupByIdAux_not_mem_seen rest (g.id :: seen) f hf
      exact fun he => hni (he ▸ List.mem_cons_self _ _)

theorem dedupById_pairwise (l : List GFile) :
    (dedupById l).Pairwise (fun f g => f.id ≠ g.id) :=
  dedupByIdAux_pairwise l []

theorem one_span_pairwise (db : List GFile) (q : GQuery) (a b : ℚ) :
    (one_span db q a b).Pairwise (fun f g => f.id ≠ g.id) :=
  dedupById_pairwise _

/-! ## C3: the wraparound split -/

/-- Counterexample to C3: a file whose bbox spans the whole globe overlaps
both sub-spans of the wraparound query `lon_min = 350 > lon_max = 10`, so
it appears twice in the result — the result is not the de-duplicated union
of the two non-wrapping queries. -/
theorem wrap_query_duplicate_counterexample :
    query (some [gGlobal]) qWrap = [gGlobal, gGlobal]
    ∧ dedupById (query (some [gGlobal]) qSpanHigh
        ++ query (some [gGlobal]) qSpanLow) = [gGlobal]
    ∧ query (some [gGlobal]) qWrap
        ≠ dedupById (query (some [gGlobal]) qSpanHigh
            ++ query (some [gGlobal]) qSpanLow) := by
  with_unfolding_all decide

/-- C3 as amended: a wraparound query returns the concatenation of the two
non-wrapping queries over `[lon_min, 360]` and `[0, lon_max]` with the same
window, variables and products; each of the two parts is internally
de-duplicated by file identity, but a file overlapping both sub-spans
appears once in each part and hence twice in the concatenation. -/
theorem wrap_query_concat (db : List GFile)
    (st en lomin lomax lamin lamax : ℚ) (va : Option (List String))
    (ra : Bool) (pr : Option (List String))
    (hwrap : lomax < lomin) (h1 : lomin ≤ 360) (h2 : (0 : ℚ) ≤ lomax) :
    query (some db) ⟨st, en, lomin, lomax, lamin, lamax, va, ra, pr⟩
      = query (some db) ⟨st, en, lomin, 360, lamin, lamax, va, ra, pr⟩
        ++ query (some db) ⟨st, en, 0, lomax, lamin, lamax, va, ra, pr⟩
    ∧ (query (some db) ⟨st, en, lomin, 360, lamin, lamax, va, ra, pr⟩).Pairwise
        (fun f g => f.id ≠ g.id)
    ∧ (query (some db) ⟨st, en, 0, lomax, lamin, lamax, va, ra, pr⟩).Pairwise
        (fun f g => f.id ≠ g.id) := by
  have eWrap : query (some db) ⟨st, en, lomin, lomax, lamin, lamax, va, ra, pr⟩
      = one_span db ⟨st, en, lomin, lomax, lamin, lamax, va, ra, pr⟩ lomin 360
        ++ one_span db ⟨st, en, lomin, lomax, lamin, lamax, va, ra, pr⟩ 0 lomax := by
    simp only [query]
    rw [if_neg (not_le.mpr hwrap)]
  have eHigh : query (some db) ⟨st, en, lomin, 360, lamin, lamax, va, ra, pr⟩
      = one_span db ⟨st, en, lomin, 360, lamin, lamax, va, ra, pr⟩ lomin 360 := by
    simp only [query]
    rw [if_pos h1]
  have eLow : query (some db) ⟨st, en, 0, lomax, lamin, lamax, va, ra, pr⟩
      = one_span db ⟨st, en, 0, lomax, lamin, lamax, va, ra, pr⟩ 0 lomax := by
    simp only [query]
    rw [if_pos h2]
  refine ⟨?_, ?_, ?_⟩
  · rw [eWrap, eHigh, eLow]
    rfl
  · rw [eHigh]
    exact one_span_pairwise _ _ _ _
  · rw [eLow]
    exact one_span_pairwise _ _ _ _

/-- Witness for the amended C3: the wraparound query over the single
global file equals the concatenation of the two sub-queries. -/
theorem wrap_query_concat_witness :
    query (some [gGlobal]) qWrap
      = query (some [gGlobal]) qSpanHigh ++ query (some [gGlobal]) qSpanLow :=
  (wrap_query_concat [gGlobal] 0 100 350 10 (-90) 90 (some ["t2m"]) false none
    (by decide) (by decide) (by decide)).1

/-! ## C5: ANY versus ALL variable semantics -/

/-- C5: over a corpus of exactly two files, A with variables `{t2m}` and B
with variables `{t2m, prate}`, both passing the spatial/time/product
filters, the query for `{t2m, prate}` in ANY mode returns both files (a
file is kept iff one of its record variables is requested) and in ALL mode
returns only B (a file is kept iff its variable set is a superset of the
requested set). -/
theorem any_all_variable_semantics (A B : GFile)
    (st en lomin lomax lamin lamax : ℚ) (pr : Option (List String))
    (hid : A.id ≠ B.id)
    (hlon : lomin ≤ lomax)
    (hA : baseMatch ⟨st, en, lomin, lomax, lamin, lamax,
        some ["t2m", "prate"], false, pr⟩ lomin lomax A = true)
    (hB : baseMatch ⟨st, en, lomin, lomax, lamin, lamax,
        some ["t2m", "prate"], false, pr⟩ lomin lomax B = true)
    (hAv : A.vars = ["t2m"]) (hBv : B.vars = ["t2m", "prate"]) :
    query (some [A, B]) ⟨st, en, lomin, lomax, lamin, lamax,
        some ["t2m", "prate"], false, pr⟩ = [A, B]
    ∧ query (some [A, B]) ⟨st, en, lomin, lomax, lamin, lamax,
        some ["t2m", "prate"], true, pr⟩ = [B] := by
  have hvA : varCondition (normVars (some ["t2m", "prate"])) false A = true := by
    show (A.vars.any fun v2 => (["t2m", "prate"]).contains v2) = true
    rw [hAv]
    rfl
  have hvB : varCondition (normVars (some ["t2m", "prate"])) false B = true := by
    show (B.vars.any fun v2 => (["t2m", "prate"]).contains v2) = true
    rw [hBv]
    rfl
  have hvA2 : varCondition (normVars (some ["t2m", "prate"])) true A = false := by
    show (!A.vars.isEmpty
        && (["t2m", "prate"]).all fun v2 => A.vars.contains v2) = false
    rw [hAv]
    rfl
  have hvB2 : varCondition (normVars (some ["t2m", "prate"])) true B = true := by
    show (!B.vars.isEmpty
        && (["t2m", "prate"]).all fun v2 => B.vars.contains v2) = true
    rw [hBv]
    rfl
  have hB2 : baseMatch ⟨st, en, lomin, lomax, lamin, lamax,
      some ["t2m", "prate"], true, pr⟩ lomin lomax B = true := hB
  have hA2 : baseMatch ⟨st, en, lomin, lomax, lamin, lamax,
      some ["t2m", "prate"], true, pr⟩ lomin lomax A = true := hA
  have hdedup : dedupById [A, B] = [A, B] := by
    unfold dedupById
    rw [dedupByIdAux, if_neg (List.not_mem_nil A.id)]
    rw [dedupByIdAux, if_neg (by simp [Ne.symm hid])]
    rfl
  constructor
  · simp only [query]
    rw [if_pos hlon]
    simp only [one_span, List.filter_cons, List.filter_nil, hA, hvA, hB, hvB,
      Bool.and_true, Bool.true_and, if_true]
    exact hdedup
  · simp only [query]
    rw [if_pos hlon]
    simp only [one_span, List.filter_cons, List.filter_nil, hA2, hvA2, hB2,
      hvB2, Bool.and_true, Bool.true_and, Bool.and_false, if_true, if_false]
    rfl

/-- Witness for C5: the concrete two-file corpus `gA`, `gB`. -/
theorem any_all_variable_semantics_witness :
    query (some [gA, gB]) ⟨0, 100, 0, 360, -90, 90,
        some ["t2m", "prate"], false, none⟩ = [gA, gB]
    ∧ query (some [gA, gB]) ⟨0, 100, 0, 360, -90, 90,
        some ["t2m", "prate"], true, none⟩ = [gB] :=
  any_all_variable_semantics gA gB 0 100 0 360 (-90) 90 none
    (by decide) (by with_unfolding_all decide) (by with_unfolding_all decide)
    (by with_unfolding_all decide) (by with_unfolding_all decide)
    (by with_unfolding_all decide)

/-! ## C7: behaviour on a missing index store -/

/-- Counterexample to C7: with a missing index store the code logs and
returns the empty list — an ordinary result, not an `IndexUnavailable`
error as the spec-side model `query_spec` prescribes. -/
theorem missing_store_ordinary_result_counterexample :
    query none qBase = ([] : List GFile)
    ∧ query_spec none qBase = .error .indexUnavailable
    ∧ Except.ok (query none qBase) ≠ query_spec none qBase := by
  with_unfolding_all decide

/-- C7 as amended: a query against a non-existent index store logs an
error and returns the empty list — indistinguishable from querying an
empty store; no error is surfaced. -/
theorem missing_store_returns_empty (q : GQuery) :
    query none q = [] ∧ query none q = query (some []) q := by
  refine ⟨rfl, ?_⟩
  simp only [query]
  split <;> rfl

/-- Witness for the amended C7 at a concrete query. -/
theorem missing_store_returns_empty_witness :
    query none qBase = ([] : List GFile) :=
  (missing_store_returns_empty qBase).1

/-! ## C9: behaviour on empty variable or product sets -/

/-- Counterexample to C9: a query with an empty variable set is not
rejected; it returns the same candidates as an unfiltered query, whereas
the spec-side model `query_spec` prescribes an `InvalidQuery` error. -/
theorem empty_sets_not_rejected_counterexample :
    query (some [gA]) qEmptyVars = [gA]
    ∧ query_spec (some [gA]) qEmptyVars = .error .invalidQuery
    ∧ Except.ok (query (some [gA]) qEmptyVars)
        ≠ query_spec (some [gA]) qEmptyVars := by
  with_unfolding_all decide

/-- C9 as amended: an empty variable set and an empty product set are each
treated as the absence of that filter (`if vars_any else None` /
`if products else None`); no `InvalidQuery` error exists or is raised. -/
theorem empty_sets_treated_as_no_filter (store : Option (List GFile))
    (st en lomin lomax lamin lamax : ℚ) (va : Option (List String))
    (ra : Bool) (pr : Option (List String)) :
    query store ⟨st, en, lomin, lomax, lamin, lamax, some [], ra, pr⟩
      = query store ⟨st, en, lomin, lomax, lamin, lamax, none, ra, pr⟩
    ∧ query store ⟨st, en, lomin, lomax, lamin, lamax, va, ra, some []⟩
      = query store ⟨st, en, lomin, lomax, lamin, lamax, va, ra, none⟩ := by
  constructor <;> (cases store with
    | none => rfl
    | some db => with_unfolding_all rfl)

/-- Witness for the amended C9 at a concrete store and query. -/
theorem empty_sets_treated_as_no_filter_witness :
    query (some [gA]) qEmptyVars = query (some [gA]) qNoVars :=
  (empty_sets_treated_as_no_filter (some [gA]) 0 100 0 360 (-90) 90 none
    false none).1

end WeatherProj
